import Mathlib

/-!
Verification of coursemology-submission-uploader's student/file/question
resolution and submission core against its specification.

The definitions below are a shallow embedding of the Python modules
`coursemology_uploader/submission_handler.py`, `coursemology_queries.py`,
`file_mapping.py` and `workflow.py`.  Python dicts are modelled as
insertion-ordered association lists, exceptions as an `Except` monad over an
explicit exception-kind type, and the remote Coursemology API (an external
collaborator) as an environment of response functions.
-/

/-! ## Data model (coursemology_py models and types.py) -/

/-- A roster record (coursemology_py CourseUser): id, name, email. -/
structure CourseUser where
  id : Nat
  name : String
  email : String
deriving DecidableEq, Repr

/-- types.py StudentInfo: student identity stored in a report entry
(id is stored as a string, via str(student.id)). -/
structure StudentInfo where
  name : String
  email : String
  id : String
deriving DecidableEq, Repr

/-- One element of an answer's files_attributes: file slot id and filename. -/
structure FileInfo where
  id : Nat
  filename : String
deriving DecidableEq, Repr

/-- The fields of a programming answer, holding its file slots. -/
structure AnswerFields where
  files_attributes : List FileInfo
deriving DecidableEq, Repr

/-- coursemology_py ProgrammingAnswerInfo: an answer id plus its fields. -/
structure ProgrammingAnswerInfo where
  id : Nat
  fields : AnswerFields
deriving DecidableEq, Repr

/-- coursemology_py QuestionInfo: a question title and its optional answer id. -/
structure QuestionInfo where
  question_title : String
  answer_id : Option Nat
deriving DecidableEq, Repr

/-- coursemology_py SubmissionEditData: the editable view of a submission. -/
structure SubmissionEditData where
  questions : List QuestionInfo
  answers : List ProgrammingAnswerInfo
deriving DecidableEq, Repr

/-- coursemology_py AssessmentSubmission: submission id (optional on the wire),
owning course user id, and workflow state string. -/
structure AssessmentSubmission where
  id : Option Nat
  course_user_id : Nat
  workflow_state : String
deriving DecidableEq, Repr

/-- One file entry of an answer-write payload. -/
structure ProgrammingFilePayload where
  id : Nat
  filename : String
  content : String
deriving DecidableEq, Repr

/-- The payload sent to the remote answer-write endpoint. -/
structure ProgrammingAnswerPayload where
  id : Nat
  files_attributes : List ProgrammingFilePayload
deriving DecidableEq, Repr

/-- A handle for a background grading job returned by the remote API. -/
structure JobSubmitted where
  jobId : Nat
deriving DecidableEq, Repr

/-- types.py SubmissionReport: one report entry per file-key. -/
structure SubmissionReport where
  student : Option StudentInfo
  errors : List String
  submitted : List String
  no_match : List String
  no_submission : List String
deriving DecidableEq, Repr

/-! ## Python exceptions and dicts -/

/-- The Python exception kinds the uploader's handlers distinguish.
`unicodeDecodeError` is listed separately because the source names it in an
except clause; in Python it is a subclass of ValueError.  `otherError` stands
for any exception of a kind not named by the source's except clauses (e.g. a
connection error from the remote client, or an AssertionError). -/
inductive PyExc where
  | valueError (msg : String)
  | osError (msg : String)
  | unicodeDecodeError (msg : String)
  | otherError (msg : String)
deriving DecidableEq, Repr

/-- The message carried by an exception (str(e) in the source's f-strings). -/
def PyExc.msg : PyExc → String
  | .valueError m => m
  | .osError m => m
  | .unicodeDecodeError m => m
  | .otherError m => m

/-- Which exceptions a Python `except ValueError` clause catches:
ValueError and its subclass UnicodeDecodeError. -/
def PyExc.isValueError : PyExc → Bool
  | .valueError _ => true
  | .unicodeDecodeError _ => true
  | _ => false

/-- Which exceptions the file-submission loop's
`except (ValueError, OSError, UnicodeDecodeError)` clause catches. -/
def PyExc.caughtByFileLoop : PyExc → Bool
  | .valueError _ => true
  | .osError _ => true
  | .unicodeDecodeError _ => true
  | .otherError _ => false

/-- Python dict lookup d[k] / `k in d` on an insertion-ordered dict modelled
as an association list with unique keys: the first binding of k, if any. -/
def pyGet {α β : Type} [BEq α] (l : List (α × β)) (k : α) : Option β :=
  (l.find? (fun kv => kv.1 == k)).map (fun kv => kv.2)

/-- Python dict assignment d[k] = v: replaces the binding of k in place when
one exists (keeping its position), else appends a new binding. -/
def dinsert {β : Type} (l : List (String × β)) (k : String) (v : β) :
    List (String × β) :=
  match l with
  | [] => [(k, v)]
  | (k₀, v₀) :: rest =>
    if k₀ == k then (k, v) :: rest else (k₀, v₀) :: dinsert rest k v

/-- Python truthiness of an optional string: None and the empty string are
falsy, every other string is truthy (`if not question_key`). -/
def pyTruthyStr (s : Option String) : Bool := !(s.getD "" == "")

/-! ## Regex model (Python stdlib re, an external library)

The route tables feed their keys to `re.match(pattern, filename)`, which
matches the pattern against a PREFIX of the string: anchored at position 0,
trailing content after the matched portion ignored.  We model the pattern
fragment the uploader's route tables use: an optional leading caret (a no-op
under re.match's anchoring) followed by a sequence of literal characters, in
which a dot matches any single character. -/

/-- Does the pattern (as characters) match a prefix of the string? -/
def matchesHere : List Char → List Char → Bool
  | [], _ => true
  | _ :: _, [] => false
  | p :: ps, c :: cs => (p == '.' || p == c) && matchesHere ps cs

/-- Drop one leading caret: under re.match the anchor is already implied. -/
def stripCaret : List Char → List Char
  | '^' :: ps => ps
  | ps => ps

/-- Modelled from the spec: Python stdlib `re.match(pattern, filename)` is
external library code; per the spec it attempts "a regex match anchored at
the start of the filename (not full-string match — trailing content after
the pattern is ignored)". -/
def re_match (pattern filename : String) : Bool :=
  matchesHere (stripCaret pattern.data) filename.data

/-! ## Question Router (coursemology_queries.py) -/

/-- coursemology_queries.get_question_key: iterate the route table's keys in
declaration order and return the first whose regex matches the filename. -/
def get_question_key (filename : String)
    (file_question_map : List (String × String)) : Option String :=
  match file_question_map with
  | [] => none
  | (pattern, _) :: rest =>
    if re_match pattern filename then some pattern
    else get_question_key filename rest

/-! ## Identity Resolver (file_mapping.py) -/

/-- The by-email roster index built by the dict comprehension in
get_fname_student_map: on duplicate emails the last record wins. -/
def emailLookup (students : List CourseUser) (email : String) :
    Option CourseUser :=
  students.reverse.find? (fun s => s.email == email)

/-- The by-name roster index built by the dict comprehension in
get_fname_student_map: on duplicate names the last record wins. -/
def nameLookup (students : List CourseUser) (name : String) :
    Option CourseUser :=
  students.reverse.find? (fun s => s.name == name)

/-- file_mapping._match_student_by_email_or_name: read the key's email and
name out of its CSV row (missing columns default to the empty string), try
the email index first, then the name index, else report no match. -/
def _match_student_by_email_or_name (user_data : List (String × String))
    (email_key name_key : String)
    (email_student_map name_student_map : String → Option CourseUser) :
    Option CourseUser :=
  let email := (pyGet user_data email_key).getD ""
  let name := (pyGet user_data name_key).getD ""
  match email_student_map email with
  | some s => some s
  | none => name_student_map name

/-- file_mapping.get_fname_student_map: resolve each file-key of the
auxiliary table; unresolved keys are only printed and omitted from the
output (the function is total — no exception path).  A CourseUser object is
always truthy in Python, so `if matched_student:` is a some/none test. -/
def get_fname_student_map (email_key name_key : String)
    (students : List CourseUser)
    (fname_user_map : List (String × List (String × String))) :
    List (String × CourseUser) :=
  fname_user_map.filterMap (fun kv =>
    (_match_student_by_email_or_name kv.2 email_key name_key
      (emailLookup students) (nameLookup students)).map (fun s => (kv.1, s)))

/-! ## Question and answer lookup (coursemology_queries.py) -/

/-- coursemology_queries.get_question via _find_by_title: first question with
the given title, else a ValueError. -/
def get_question (questions : List QuestionInfo) (title : String) :
    Except PyExc QuestionInfo :=
  match questions.find? (fun q => q.question_title == title) with
  | some q => .ok q
  | none =>
    .error (.valueError ("Question with title \x27" ++ title ++ "\x27 not found."))

/-- coursemology_queries.get_answer: first answer with the given id, else a
ValueError. -/
def get_answer (answers : List ProgrammingAnswerInfo) (answer_id : Nat) :
    Except PyExc ProgrammingAnswerInfo :=
  match answers.find? (fun a => a.id == answer_id) with
  | some a => .ok a
  | none =>
    .error (.valueError ("Answer with ID \x27" ++ toString answer_id ++ "\x27 not found."))

/-- coursemology_queries.get_question_answer: resolve the question by title,
require its answer id, then resolve the answer. -/
def get_question_answer (submission_edit : SubmissionEditData)
    (question_title : String) : Except PyExc ProgrammingAnswerInfo := do
  let question ← get_question submission_edit.questions question_title
  match question.answer_id with
  | none =>
    .error (.valueError ("Question \x27" ++ question_title ++ "\x27 has no associated answer ID."))
  | some answer_id => get_answer submission_edit.answers answer_id

/-! ## Submission Executor (submission_handler.py) -/

/-- The remote Coursemology API and the filesystem, the executor's external
collaborators: the editable view of a submission, the answer-write endpoint
bound to a submission id (which may raise), and the UTF-8 file reader of
_read_file_content (which may raise OSError or UnicodeDecodeError). -/
structure RemoteEnv where
  edit : Nat → SubmissionEditData
  submitResult : Nat → ProgrammingAnswerPayload → Except PyExc JobSubmitted
  readFile : String → Except PyExc String

/-- submission_handler.submit_answer: raise ValueError when the answer has no
files_attributes, else send a payload holding exactly one file entry built
from the first files_attributes element and the given content.  The payload
actually sent is returned alongside the job so theorems can speak about the
remote write. -/
def submit_answer (submitFn : ProgrammingAnswerPayload → Except PyExc JobSubmitted)
    (answer : ProgrammingAnswerInfo) (content : String) :
    Except PyExc (ProgrammingAnswerPayload × JobSubmitted) :=
  match answer.fields.files_attributes with
  | [] =>
    .error (.valueError ("Answer " ++ toString answer.id ++ " has no files_attributes"))
  | file_info :: _ =>
    let payload : ProgrammingAnswerPayload :=
      { id := answer.id
        files_attributes :=
          [{ id := file_info.id, filename := file_info.filename, content := content }] }
    (submitFn payload).map (fun job => (payload, job))

/-- submission_handler._create_submission_report_entry: the fresh report
entry inserted for every file-key before any processing. -/
def _create_submission_report_entry : SubmissionReport :=
  { student := none, errors := [], submitted := [], no_match := [], no_submission := [] }

/-- One invocation of submit_answer recorded during _process_user_files, an
observation of the executor's write activity: the route key and question
title it served, whether it came from the placeholder loop, and whether the
attempt (answer lookup, file read and remote write together) succeeded. -/
structure SubmitAttempt where
  question_key : String
  question_title : String
  placeholder : Bool
  ok : Bool
deriving DecidableEq, Repr

/-- The executor's loop state while processing one file-key: the job handles
collected so far, the submitted_questions set of covered route keys, the
report entry under construction, and the trace of submit attempts. -/
structure ProcState where
  jobs : List JobSubmitted
  submitted_questions : List String
  entry : SubmissionReport
  trace : List SubmitAttempt
deriving Repr

/-- The body of the file-submission loop of _process_user_files for one
(filename, filepath) pair: route the filename; a falsy route key (None, or
the empty string since Python strings are truthiness-tested) goes to
no_match; otherwise look up the answer, read the file and write the content,
catching ValueError, OSError and UnicodeDecodeError at file granularity. -/
def processFile (env : RemoteEnv) (submission_edit : SubmissionEditData)
    (sid : Nat) (file_question_map : List (String × String)) (st : ProcState)
    (filename filepath : String) : Except PyExc ProcState :=
  let question_key? := get_question_key filename file_question_map
  if pyTruthyStr question_key? = false then
    .ok { st with entry := { st.entry with no_match := st.entry.no_match ++ [filename] } }
  else
    let question_key := question_key?.getD ""
    let question_title := (pyGet file_question_map question_key).getD ""
    let attempt : Except PyExc JobSubmitted := do
      let answer ← get_question_answer submission_edit question_title
      let content ← env.readFile filepath
      let pj ← submit_answer (env.submitResult sid) answer content
      pure pj.2
    match attempt with
    | .ok job =>
      .ok { jobs := st.jobs ++ [job]
            submitted_questions := st.submitted_questions ++ [question_key]
            entry := { st.entry with submitted := st.entry.submitted ++ [filename] }
            trace := st.trace ++ [⟨question_key, question_title, false, true⟩] }
    | .error e =>
      if e.caughtByFileLoop then
        .ok { st with
              entry := { st.entry with
                         errors := st.entry.errors ++
                           ["Failed to submit " ++ filename ++ ": " ++ e.msg] }
              trace := st.trace ++ [⟨question_key, question_title, false, false⟩] }
      else .error e

/-- The body of the try block in the placeholder loop: look up the answer for
the question title and write the placeholder content. -/
def placeholderAttempt (env : RemoteEnv) (submission_edit : SubmissionEditData)
    (sid : Nat) (question_title no_submission_content : String) :
    Except PyExc JobSubmitted := do
  let answer ← get_question_answer submission_edit question_title
  let pj ← submit_answer (env.submitResult sid) answer no_submission_content
  pure pj.2

/-- The body of the placeholder loop of _process_user_files for one
(question_key, question_title) route entry: keys already covered are
skipped; otherwise the title is appended to no_submission and the
placeholder written, catching only ValueError at question granularity. -/
def processPlaceholder (env : RemoteEnv) (submission_edit : SubmissionEditData)
    (sid : Nat) (no_submission_content : String) (st : ProcState)
    (question_key question_title : String) : Except PyExc ProcState :=
  if st.submitted_questions.contains question_key then .ok st
  else
    let entry₁ :=
      { st.entry with no_submission := st.entry.no_submission ++ [question_title] }
    match placeholderAttempt env submission_edit sid question_title no_submission_content with
    | .ok job =>
      .ok { st with
            jobs := st.jobs ++ [job]
            entry := entry₁
            trace := st.trace ++ [⟨question_key, question_title, true, true⟩] }
    | .error e =>
      if e.isValueError then
        .ok { st with
              entry := { entry₁ with
                         errors := entry₁.errors ++
                           ["Failed to submit placeholder for " ++ question_title ++ ": " ++ e.msg] }
              trace := st.trace ++ [⟨question_key, question_title, true, false⟩] }
      else .error e

/-- submission_handler._process_user_files: process one file-key.  A missing
student or missing submission records an error and stops this key (no remote
calls); otherwise the submission's editable view is opened once, every file
is routed and submitted, and every uncovered route entry receives a
placeholder write.  The source asserts that the submission id is present;
the failed assertion is modelled as an uncaught exception. -/
def _process_user_files (env : RemoteEnv) (fname : String)
    (files : List (String × String))
    (fname_student_map : List (String × CourseUser))
    (user_submission_map : List (Nat × AssessmentSubmission))
    (file_question_map : List (String × String))
    (report_entry : SubmissionReport) (no_submission_content : String) :
    Except PyExc (List JobSubmitted × SubmissionReport × List SubmitAttempt) :=
  match pyGet fname_student_map fname with
  | none =>
    .ok ([], { report_entry with
               errors := report_entry.errors ++ ["No matching student found"] }, [])
  | some student =>
    let entry₀ := { report_entry with
                    student := some ⟨student.name, student.email, toString student.id⟩ }
    match pyGet user_submission_map student.id with
    | none =>
      .ok ([], { entry₀ with
                 errors := entry₀.errors ++
                   ["No matching submission found for student " ++ student.name ++
                    " (" ++ toString student.id ++ ")"] }, [])
    | some submission =>
      match submission.id with
      | none =>
        .error (.otherError ("Submission for student " ++ toString student.id ++ " has no ID"))
      | some sid =>
        let submission_edit := env.edit sid
        do
          let st₁ ← files.foldlM
            (fun st fp => processFile env submission_edit sid file_question_map st fp.1 fp.2)
            (⟨[], [], entry₀, []⟩ : ProcState)
          let st₂ ← file_question_map.foldlM
            (fun st kv =>
              processPlaceholder env submission_edit sid no_submission_content st kv.1 kv.2)
            st₁
          pure (st₂.jobs, st₂.entry, st₂.trace)

/-- Python list.sort() on strings: sort lexicographically. -/
def pysort (l : List String) : List String := List.insertionSort (· ≤ ·) l

/-- The in-place sort of all four list fields of a report entry performed by
submit_answers before returning. -/
def sortEntry (e : SubmissionReport) : SubmissionReport :=
  { e with
    errors := pysort e.errors
    submitted := pysort e.submitted
    no_match := pysort e.no_match
    no_submission := pysort e.no_submission }

/-- submission_handler.submit_answers: create a fresh report entry for every
file-key, process each key in iteration order, collect all job handles, and
sort every report entry's list fields for consistency.  The per-key traces
are returned alongside the report for observation. -/
def submit_answers (env : RemoteEnv)
    (user_files : List (String × List (String × String)))
    (fname_student_map : List (String × CourseUser))
    (user_submission_map : List (Nat × AssessmentSubmission))
    (file_question_map : List (String × String))
    (no_submission_content : String) :
    Except PyExc (List JobSubmitted × List (String × SubmissionReport)) := do
  let acc ← user_files.foldlM
    (fun (acc : List JobSubmitted × List (String × SubmissionReport)) kv => do
      let r ← _process_user_files env kv.1 kv.2 fname_student_map
        user_submission_map file_question_map _create_submission_report_entry
        no_submission_content
      pure (acc.1 ++ r.1, dinsert acc.2 kv.1 r.2.1))
    ([], [])
  pure (acc.1, acc.2.map (fun kv => (kv.1, sortEntry kv.2)))

/-! ## Auto-grading wait (workflow.py) -/

/-- The submission-list endpoint as the auto-grading wait sees it: the list
get_student_submissions returns when called at elapsed time t (seconds of
simulated polling; network latency is not modelled, sleeps advance time). -/
structure WaitEnv where
  index : Nat → List AssessmentSubmission

/-- The count of submissions still in the submitted workflow state
(`sum(1 for s in ... if s.workflow_state == "submitted")`). -/
def countSubmitted (subs : List AssessmentSubmission) : Nat :=
  subs.countP (fun s => s.workflow_state == "submitted")

/-- The timeout raised when polling exhausts its budget with submissions
still in the submitted state, carrying the data of the source's message. -/
structure GradingTimeout where
  grading_max_wait_seconds : Nat
  remaining : Nat
deriving DecidableEq, Repr

/-- The polling loop of _wait_for_auto_grading: at each iteration fetch the
submission list (one poll), lower the tracked count only when it decreased
(graded_this_iteration > 0), break once the tracked count reaches zero, and
otherwise sleep one interval before the next iteration.  Returns the last
fetched list, the tracked count and the number of polls made. -/
def waitLoop (env : WaitEnv) (pollInterval : Nat) :
    Nat → Nat → Nat → Nat → List AssessmentSubmission →
    List AssessmentSubmission × Nat × Nat
  | 0, _, submitted_count, polls, subs => (subs, submitted_count, polls)
  | iters + 1, t, submitted_count, polls, _subs =>
    let subs₁ := env.index t
    let new_submitted_count := countSubmitted subs₁
    let submitted_count₁ :=
      if new_submitted_count < submitted_count then new_submitted_count
      else submitted_count
    if submitted_count₁ = 0 then (subs₁, submitted_count₁, polls + 1)
    else
      waitLoop env pollInterval iters (t + pollInterval) submitted_count₁
        (polls + 1) subs₁

/-- workflow._wait_for_auto_grading: return at once when nothing is in the
submitted state; otherwise poll up to max_wait // poll_interval times,
breaking early when the count reaches zero, and raise a timeout when
submissions remain submitted afterwards.  Returns the final submission list
together with the number of polls of the submission list that were made. -/
def _wait_for_auto_grading (env : WaitEnv)
    (student_submissions : List AssessmentSubmission)
    (grading_max_wait_seconds grading_poll_interval_seconds : Nat) :
    Except GradingTimeout (List AssessmentSubmission × Nat) :=
  let submitted_count := countSubmitted student_submissions
  if submitted_count = 0 then .ok (student_submissions, 0)
  else
    let max_iterations := grading_max_wait_seconds / grading_poll_interval_seconds
    let r := waitLoop env grading_poll_interval_seconds max_iterations 0
      submitted_count 0 student_submissions
    let remaining := countSubmitted r.1
    if remaining ≠ 0 then .error ⟨grading_max_wait_seconds, remaining⟩
    else .ok (r.1, r.2.2)

/-! ## Observation helpers and proof-level invariants -/

/-- The number of polls a wait outcome reports, when it did not time out. -/
def wait_polls (r : Except GradingTimeout (List AssessmentSubmission × Nat)) :
    Option Nat :=
  match r with
  | .ok p => some p.2
  | .error _ => none

/-- The executor's covering discipline: a route key is in
submitted_questions exactly when some file-loop submit attempt for it
succeeded. -/
def coveredInv (st : ProcState) : Prop :=
  ∀ k, st.submitted_questions.contains k =
    st.trace.any (fun ev => !ev.placeholder && ev.ok && (ev.question_key == k))

/-- Every key the file loop records in an attempt is truthy (get_question_key
results are filtered through Python truthiness before use). -/
def fileKeysTruthy (st : ProcState) : Prop :=
  ∀ ev ∈ st.trace, ev.placeholder = false → ev.question_key ≠ ""

/-- Every failed placeholder attempt left its error message in the entry. -/
def placeholderErrorsRecorded (st : ProcState) : Prop :=
  ∀ ev ∈ st.trace, ev.placeholder = true → ev.ok = false →
    ∃ m, ("Failed to submit placeholder for " ++ ev.question_title ++ ": " ++ m) ∈
      st.entry.errors

/-! ## Concrete data for counterexamples and witnesses -/

/-- An edit view with a single question Q1 whose answer has one file slot. -/
def editQ1 : SubmissionEditData :=
  { questions := [⟨"Q1", some 1⟩], answers := [⟨1, ⟨[⟨10, "main.py"⟩]⟩⟩] }

/-- An edit view with two questions Q1 and Q2, one file slot each. -/
def editQ12 : SubmissionEditData :=
  { questions := [⟨"Q1", some 1⟩, ⟨"Q2", some 2⟩]
    answers := [⟨1, ⟨[⟨10, "main.py"⟩]⟩⟩, ⟨2, ⟨[⟨20, "other.py"⟩]⟩⟩] }

/-- A remote environment in which every call succeeds (edit view editQ1). -/
def envOk : RemoteEnv :=
  { edit := fun _ => editQ1
    submitResult := fun _ _ => .ok ⟨0⟩
    readFile := fun _ => .ok "content" }

/-- A remote environment in which every call succeeds (edit view editQ12). -/
def envOk2 : RemoteEnv :=
  { edit := fun _ => editQ12
    submitResult := fun _ _ => .ok ⟨0⟩
    readFile := fun _ => .ok "content" }

/-- A remote environment whose answer-write endpoint fails with an OSError
(a connection failure), while everything else succeeds. -/
def envOsFail : RemoteEnv :=
  { edit := fun _ => editQ1
    submitResult := fun _ _ => .error (.osError "connection reset")
    readFile := fun _ => .ok "content" }

/-- A remote environment whose answer-write endpoint fails with a ValueError
(e.g. a rejected payload), while everything else succeeds. -/
def envValFail : RemoteEnv :=
  { edit := fun _ => editQ1
    submitResult := fun _ _ => .error (.valueError "bad request")
    readFile := fun _ => .ok "content" }

/-- A one-student resolved mapping for concrete runs. -/
def fsm1 : List (String × CourseUser) := [("alice", ⟨7, "Alice", "alice@example.com"⟩)]

/-- The matching one-submission map for concrete runs. -/
def usm1 : List (Nat × AssessmentSubmission) := [(7, ⟨some 77, 7, "attempting"⟩)]

/-- A route table in which two patterns map to the same question title. -/
def fqmShared : List (String × String) := [("a", "Q1"), ("b", "Q1")]

/-- A route table in which the empty-string pattern is the second key. -/
def fqmEmptySecond : List (String × String) := [("a", "Q1"), ("", "Q2")]

/-- The auto-grading scenario of the spec: one submission that leaves the
submitted state at t = 12 seconds of simulated polling. -/
def envC2 : WaitEnv :=
  ⟨fun t => [⟨some 1, 7, if 12 ≤ t then "attempting" else "submitted"⟩]⟩

/-- The initial submission list of the auto-grading scenario. -/
def initC2 : List AssessmentSubmission := [⟨some 1, 7, "submitted"⟩]

/-- A roster in which one record matches a file-key by email and a different
record matches the same key by name. -/
def rosterBoth : List CourseUser :=
  [⟨1, "Alice", "alice@example.com"⟩, ⟨2, "Bob", "bob@example.com"⟩]

/-- An auxiliary table whose single key carries Bob's name but Alice's
email address. -/
def fumBoth : List (String × List (String × String)) :=
  [("k1", [("name", "Bob"), ("email", "alice@example.com")])]

/-! ## Basic lemmas about the dict and regex models -/

theorem pyGet_nil {α β : Type} [BEq α] (k : α) :
    pyGet ([] : List (α × β)) k = none := rfl

theorem pyGet_cons {α β : Type} [BEq α] (k₀ : α) (v₀ : β)
    (rest : List (α × β)) (k : α) :
    pyGet ((k₀, v₀) :: rest) k = if k₀ == k then some v₀ else pyGet rest k := by
  unfold pyGet
  rw [List.find?_cons]
  by_cases h : (k₀ == k) = true <;> simp [h]

theorem matchesHere_append (ps cs ds : List Char)
    (h : matchesHere ps cs = true) : matchesHere ps (cs ++ ds) = true := by
  induction ps generalizing cs with
  | nil => simp [matchesHere]
  | cons p ps ih =>
    cases cs with
    | nil => simp [matchesHere] at h
    | cons c cs =>
      simp only [matchesHere, Bool.and_eq_true] at h
      simp only [List.cons_append, matchesHere, Bool.and_eq_true]
      exact ⟨h.1, ih cs h.2⟩

theorem re_match_extend (p s t : String) (h : re_match p s = true) :
    re_match p (s ++ t) = true := by
  unfold re_match at h ⊢
  rw [String.data_append]
  exact matchesHere_append _ _ _ h

theorem get_question_key_first (filename : String)
    (fqm : List (String × String)) :
    (∀ k, get_question_key filename fqm = some k ↔
      ∃ pre title post, fqm = pre ++ (k, title) :: post ∧
        re_match k filename = true ∧
        ∀ q ∈ pre, re_match q.1 filename = false) ∧
    (get_question_key filename fqm = none ↔
      ∀ q ∈ fqm, re_match q.1 filename = false) := by
  induction fqm with
  | nil =>
    constructor
    · intro k
      simp [get_question_key]
    · simp [get_question_key]
  | cons hd rest ih =>
    obtain ⟨p, t⟩ := hd
    by_cases hm : re_match p filename = true
    · constructor
      · intro k
        constructor
        · intro h
          simp only [get_question_key, hm, if_true] at h
          obtain rfl : p = k := by injection h
          exact ⟨[], t, rest, rfl, hm, by simp⟩
        · rintro ⟨pre, title, post, heq, hk, hpre⟩
          cases pre with
          | nil =>
            obtain ⟨⟨rfl, -⟩, -⟩ : (p = k ∧ t = title) ∧ rest = post := by
              simpa using heq
            simp [get_question_key, hm]
          | cons q pre =>
            obtain ⟨rfl, -⟩ : (p, t) = q ∧ rest = pre ++ (k, title) :: post := by
              simpa using heq
            exact absurd hm (by simpa using hpre (p, t) (by simp))
      · constructor
        · intro h
          simp [get_question_key, hm] at h
        · intro h
          exact absurd hm (by simpa using h (p, t) (by simp))
    · have hm' : re_match p filename = false := by
        simpa using hm
      constructor
      · intro k
        rw [show get_question_key filename ((p, t) :: rest) =
            get_question_key filename rest by simp [get_question_key, hm']]
        rw [(ih.1 k)]
        constructor
        · rintro ⟨pre, title, post, heq, hk, hpre⟩
          refine ⟨(p, t) :: pre, title, post, by simp [heq], hk, ?_⟩
          rintro q hq
          rcases List.mem_cons.mp hq with rfl | hq
          · exact hm'
          · exact hpre q hq
        · rintro ⟨pre, title, post, heq, hk, hpre⟩
          cases pre with
          | nil =>
            obtain ⟨⟨rfl, -⟩, -⟩ : ((p : String) = k ∧ t = title) ∧ rest = post := by
              simpa using heq
            exact absurd hk (by simp [hm'])
          | cons q pre =>
            obtain ⟨-, hrest⟩ : (p, t) = q ∧ rest = pre ++ (k, title) :: post := by
              simpa using heq
            exact ⟨pre, title, post, hrest, hk,
              fun q hq => hpre q (List.mem_cons_of_mem _ hq)⟩
      · rw [show get_question_key filename ((p, t) :: rest) =
            get_question_key filename rest by simp [get_question_key, hm']]
        rw [ih.2]
        constructor
        · intro h q hq
          rcases List.mem_cons.mp hq with rfl | hq
          · exact hm'
          · exact h q hq
        · intro h q hq
          exact h q (List.mem_cons_of_mem _ hq)

/-- C5: for every filename and every pattern table, the Question Router
iterates patterns in declaration order and returns the key of the first
pattern whose regex matches anchored at position 0 of the filename (trailing
content after the matched portion is ignored — matching is stable under
appending to the filename); if no pattern matches, it returns none. -/
theorem question_router_first_match (filename : String)
    (fqm : List (String × String)) :
    (∀ k, get_question_key filename fqm = some k ↔
      ∃ pre title post, fqm = pre ++ (k, title) :: post ∧
        re_match k filename = true ∧
        ∀ q ∈ pre, re_match q.1 filename = false) ∧
    (get_question_key filename fqm = none ↔
      ∀ q ∈ fqm, re_match q.1 filename = false) ∧
    (∀ p extra, re_match p filename = true → re_match p (filename ++ extra) = true) :=
  ⟨(get_question_key_first filename fqm).1, (get_question_key_first filename fqm).2,
    fun p extra h => re_match_extend p filename extra h⟩

/-! ## Identity Resolver lemmas -/

theorem get_fname_cons_some (email_key name_key : String)
    (students : List CourseUser) (f₀ : String) (ud₀ : List (String × String))
    (rest : List (String × List (String × String))) (s : CourseUser)
    (h : _match_student_by_email_or_name ud₀ email_key name_key
      (emailLookup students) (nameLookup students) = some s) :
    get_fname_student_map email_key name_key students ((f₀, ud₀) :: rest) =
      (f₀, s) :: get_fname_student_map email_key name_key students rest := by
  unfold get_fname_student_map
  rw [List.filterMap_cons_some (show _ = some (f₀, s) by simp [h])]

theorem get_fname_cons_none (email_key name_key : String)
    (students : List CourseUser) (f₀ : String) (ud₀ : List (String × String))
    (rest : List (String × List (String × String)))
    (h : _match_student_by_email_or_name ud₀ email_key name_key
      (emailLookup students) (nameLookup students) = none) :
    get_fname_student_map email_key name_key students ((f₀, ud₀) :: rest) =
      get_fname_student_map email_key name_key students rest := by
  unfold get_fname_student_map
  rw [List.filterMap_cons_none (by simp [h])]

theorem get_fname_student_map_not_mem (email_key name_key : String)
    (students : List CourseUser)
    (fum : List (String × List (String × String))) (fname : String)
    (h : fname ∉ fum.map Prod.fst) :
    pyGet (get_fname_student_map email_key name_key students fum) fname = none := by
  induction fum with
  | nil => rfl
  | cons hd rest ih =>
    obtain ⟨f₀, ud₀⟩ := hd
    have hne : f₀ ≠ fname := by
      intro hh
      exact h (by simp [hh])
    have hrest : fname ∉ rest.map Prod.fst := fun hh => h (by simp [hh])
    cases hm : (_match_student_by_email_or_name ud₀ email_key name_key
        (emailLookup students) (nameLookup students)) with
    | none =>
      rw [get_fname_cons_none _ _ _ _ _ _ hm]
      exact ih hrest
    | some s =>
      rw [get_fname_cons_some _ _ _ _ _ _ _ hm, pyGet_cons]
      simp only [beq_iff_eq, if_neg hne]
      exact ih hrest

theorem identity_resolver_email_first (email_key name_key : String)
    (students : List CourseUser)
    (fum : List (String × List (String × String)))
    (fname : String) (ud : List (String × String))
    (hnd : (fum.map Prod.fst).Nodup)
    (hud : pyGet fum fname = some ud) :
    (∀ s, emailLookup students ((pyGet ud email_key).getD "") = some s →
      pyGet (get_fname_student_map email_key name_key students fum) fname = some s) ∧
    (emailLookup students ((pyGet ud email_key).getD "") = none →
      pyGet (get_fname_student_map email_key name_key students fum) fname =
        nameLookup students ((pyGet ud name_key).getD "")) := by
  induction fum with
  | nil => simp [pyGet_nil] at hud
  | cons hd rest ih =>
    obtain ⟨f₀, ud₀⟩ := hd
    rw [List.map_cons, List.nodup_cons] at hnd
    rw [pyGet_cons] at hud
    by_cases hk : f₀ = fname
    · have hud' : ud₀ = ud := by
        rw [if_pos (by simpa using hk)] at hud
        exact Option.some.inj hud
      subst hud'
      have hrest : fname ∉ rest.map Prod.fst := hk ▸ hnd.1
      constructor
      · intro s hs
        have hm : _match_student_by_email_or_name ud₀ email_key name_key
            (emailLookup students) (nameLookup students) = some s := by
          unfold _match_student_by_email_or_name
          simp only [hs]
        rw [get_fname_cons_some _ _ _ _ _ _ _ hm, pyGet_cons]
        simp [hk]
      · intro hnone
        have hm : _match_student_by_email_or_name ud₀ email_key name_key
            (emailLookup students) (nameLookup students) =
            nameLookup students ((pyGet ud₀ name_key).getD "") := by
          unfold _match_student_by_email_or_name
          simp only [hnone]
        cases hn : nameLookup students ((pyGet ud₀ name_key).getD "") with
        | none =>
          rw [get_fname_cons_none _ _ _ _ _ _ (hm.trans hn)]
          exact get_fname_student_map_not_mem email_key name_key students rest fname hrest
        | some s =>
          rw [get_fname_cons_some _ _ _ _ _ _ _ (hm.trans hn), pyGet_cons]
          simp [hk]
    · have hne : (f₀ == fname) = false := by
        simpa using hk
      rw [hne] at hud
      simp only [Bool.false_eq_true, if_false] at hud
      have hih := ih hnd.2 hud
      cases hm : (_match_student_by_email_or_name ud₀ email_key name_key
          (emailLookup students) (nameLookup students)) with
      | none =>
        rw [get_fname_cons_none _ _ _ _ _ _ hm]
        exact hih
      | some s =>
        rw [get_fname_cons_some _ _ _ _ _ _ _ hm]
        constructor
        · intro s₁ hs₁
          rw [pyGet_cons]
          simp only [hne, Bool.false_eq_true, if_false]
          exact hih.1 s₁ hs₁
        · intro hnone
          rw [pyGet_cons]
          simp only [hne, Bool.false_eq_true, if_false]
          exact hih.2 hnone

/-- C4: for every file-key in the auxiliary table, the Identity Resolver
prefers the roster record matching the key's email over any record matching
the key's name, even when both exist; when neither matches, the key is
omitted from the output mapping (and the resolver is a total function — no
error is raised). -/
theorem identity_resolver_prefers_email (email_key name_key : String)
    (students : List CourseUser)
    (fum : List (String × List (String × String)))
    (fname : String) (ud : List (String × String))
    (hnd : (fum.map Prod.fst).Nodup)
    (hud : pyGet fum fname = some ud) :
    (∀ s, emailLookup students ((pyGet ud email_key).getD "") = some s →
      pyGet (get_fname_student_map email_key name_key students fum) fname = some s) ∧
    (emailLookup students ((pyGet ud email_key).getD "") = none →
      pyGet (get_fname_student_map email_key name_key students fum) fname =
        nameLookup students ((pyGet ud name_key).getD "")) ∧
    (emailLookup students ((pyGet ud email_key).getD "") = none →
      nameLookup students ((pyGet ud name_key).getD "") = none →
      pyGet (get_fname_student_map email_key name_key students fum) fname = none) := by
  obtain ⟨h₁, h₂⟩ :=
    identity_resolver_email_first email_key name_key students fum fname ud hnd hud
  exact ⟨h₁, h₂, fun he hn => (h₂ he).trans hn⟩

/-- Witness for C4: with a roster containing an email match (Alice) and a
different name match (Bob) for the same key, the resolver returns Alice. -/
theorem identity_resolver_prefers_email_witness :
    pyGet (get_fname_student_map "email" "name" rosterBoth fumBoth) "k1" =
      some ⟨1, "Alice", "alice@example.com"⟩ :=
  (identity_resolver_prefers_email "email" "name" rosterBoth fumBoth "k1"
    [("name", "Bob"), ("email", "alice@example.com")] (by decide) (by decide)).1
    ⟨1, "Alice", "alice@example.com"⟩ (by decide)

/-! ## Auto-grading wait theorems -/

/-- Counterexample for C2: in the spec's scenario (maxWait 20, interval 5,
transition at t = 12) the wait polls the submission list 4 times, not 3 —
the loop polls before each sleep, so polls happen at t = 0, 5, 10, 15. -/
theorem auto_grading_wait_not_three_polls :
    wait_polls (_wait_for_auto_grading envC2 initC2 20 5) = some 4 ∧
    wait_polls (_wait_for_auto_grading envC2 initC2 20 5) ≠ some 3 := by
  constructor
  · rfl
  · decide

/-- C2 amended: given maxWait 20 and pollInterval 5 and one submission that
leaves the submitted state at t = 12, the wait returns successfully (no
timeout) after exactly 4 polls of the submission list — at t = 0, 5, 10 and
15, the first poll happening before the first sleep, and polling stopping at
the first poll at or after t = 12. -/
theorem auto_grading_wait_four_polls :
    _wait_for_auto_grading envC2 initC2 20 5 =
      .ok ([⟨some 1, 7, "attempting"⟩], 4) := by
  rfl

/-! ## Submission Executor theorems -/

/-- C6: for every file-key with no resolved student, the executor records
exactly the no-matching-student error for that key, issues no submit
attempts (empty trace, no jobs), and leaves no_match and no_submission
empty. -/
theorem no_student_records_error_only (env : RemoteEnv) (fname : String)
    (files : List (String × String)) (fsm : List (String × CourseUser))
    (usm : List (Nat × AssessmentSubmission)) (fqm : List (String × String))
    (nsc : String) (h : pyGet fsm fname = none) :
    _process_user_files env fname files fsm usm fqm
        _create_submission_report_entry nsc =
      .ok ([], { student := none, errors := ["No matching student found"],
                 submitted := [], no_match := [], no_submission := [] }, []) := by
  unfold _process_user_files
  rw [h]
  rfl

/-- Witness for C6: the concrete key bob has no entry in the resolved map. -/
theorem no_student_records_error_only_witness :
    _process_user_files envOk "bob" [("b1", "p")] fsm1 usm1 fqmShared
        _create_submission_report_entry "# No submission" =
      .ok ([], { student := none, errors := ["No matching student found"],
                 submitted := [], no_match := [], no_submission := [] }, []) :=
  no_student_records_error_only envOk "bob" [("b1", "p")] fsm1 usm1 fqmShared
    "# No submission" (by decide)

/-- C9: submit_answer raises its ValueError exactly when the answer's
files_attributes is empty (given a remote endpoint that never raises a
ValueError itself); otherwise the payload it sends holds exactly one file
entry, built from the first files_attributes element (its id and filename)
with the given content, regardless of how many file slots the answer has. -/
theorem submit_answer_first_slot_only
    (f : ProgrammingAnswerPayload → Except PyExc JobSubmitted)
    (a : ProgrammingAnswerInfo) (c : String) :
    (a.fields.files_attributes = [] →
      submit_answer f a c =
        .error (.valueError ("Answer " ++ toString a.id ++ " has no files_attributes"))) ∧
    (∀ fi rest, a.fields.files_attributes = fi :: rest →
      submit_answer f a c =
        (f { id := a.id
             files_attributes :=
               [{ id := fi.id, filename := fi.filename, content := c }] }).map
          (fun job =>
            ({ id := a.id
               files_attributes :=
                 [{ id := fi.id, filename := fi.filename, content := c }] }, job))) ∧
    ((∀ p e, f p = .error e → e.isValueError = false) →
      ((∃ e, submit_answer f a c = .error e ∧ e.isValueError = true) ↔
        a.fields.files_attributes = [])) := by
  cases hfa : a.fields.files_attributes with
  | nil =>
    refine ⟨fun _ => by simp [submit_answer, hfa], ?_, ?_⟩
    · intro fi rest hr
      exact absurd hr (by simp)
    · intro _
      constructor
      · intro _
        rfl
      · intro _
        exact ⟨.valueError ("Answer " ++ toString a.id ++ " has no files_attributes"),
          by simp [submit_answer, hfa], rfl⟩
  | cons fi₀ rest₀ =>
    refine ⟨fun h => absurd h (by simp), ?_, ?_⟩
    · intro fi rest hr
      obtain ⟨rfl, rfl⟩ : fi₀ = fi ∧ rest₀ = rest := by simpa using hr
      simp [submit_answer, hfa]
    · intro hf
      constructor
      · rintro ⟨e, he, hev⟩
        unfold submit_answer at he
        rw [hfa] at he
        cases hp : f ⟨a.id, [⟨fi₀.id, fi₀.filename, c⟩]⟩ with
        | ok job => simp [hp, Except.map] at he
        | error e₁ =>
          have hv := hf _ _ hp
          simp [hp, Except.map] at he
          subst he
          simp [hv] at hev
      · intro h
        exact absurd h (by simp)

/-! ## Executor loop lemmas -/

theorem except_bind_ok {α β ε : Type} (a : α) (g : α → Except ε β) :
    (Except.ok a >>= g) = g a := rfl

theorem except_bind_error {α β ε : Type} (e : ε) (g : α → Except ε β) :
    ((Except.error e : Except ε α) >>= g) = .error e := rfl

theorem processFile_shape (env : RemoteEnv) (ed : SubmissionEditData) (sid : Nat)
    (fqm : List (String × String)) (st : ProcState) (filename filepath : String)
    (st' : ProcState)
    (h : processFile env ed sid fqm st filename filepath = .ok st') :
    (∀ x ∈ st.entry.errors, x ∈ st'.entry.errors) ∧
    ((st'.submitted_questions = st.submitted_questions ∧ st'.trace = st.trace) ∨
     (∃ K T, K ≠ "" ∧ st'.submitted_questions = st.submitted_questions ++ [K] ∧
        st'.trace = st.trace ++ [⟨K, T, false, true⟩]) ∨
     (∃ K T, K ≠ "" ∧ st'.submitted_questions = st.submitted_questions ∧
        st'.trace = st.trace ++ [⟨K, T, false, false⟩])) := by
  unfold processFile at h
  simp only [] at h
  by_cases hq : pyTruthyStr (get_question_key filename fqm) = false
  · rw [if_pos hq] at h
    obtain rfl := Except.ok.inj h
    exact ⟨fun x hx => hx, Or.inl ⟨rfl, rfl⟩⟩
  · rw [if_neg hq] at h
    have hK : (get_question_key filename fqm).getD "" ≠ "" := by
      intro hk
      exact hq (by simp [pyTruthyStr, hk])
    set K := (get_question_key filename fqm).getD "" with hKdef
    set T := (pyGet fqm K).getD "" with hTdef
    cases hatt : (do
        let answer ← get_question_answer ed T
        let content ← env.readFile filepath
        let pj ← submit_answer (env.submitResult sid) answer content
        pure pj.2 : Except PyExc JobSubmitted) with
    | ok job =>
      rw [hatt] at h
      simp only [] at h
      obtain rfl := Except.ok.inj h
      exact ⟨fun x hx => hx, Or.inr (Or.inl ⟨K, T, hK, rfl, rfl⟩)⟩
    | error e =>
      rw [hatt] at h
      simp only [] at h
      by_cases hc : e.caughtByFileLoop = true
      · rw [if_pos hc] at h
        obtain rfl := Except.ok.inj h
        refine ⟨fun x hx => by simp [hx], Or.inr (Or.inr ⟨K, T, hK, rfl, rfl⟩)⟩
      · rw [if_neg hc] at h
        exact absurd h (by simp)

theorem processPlaceholder_shape (env : RemoteEnv) (ed : SubmissionEditData)
    (sid : Nat) (nsc : String) (st : ProcState) (K T : String) (st' : ProcState)
    (h : processPlaceholder env ed sid nsc st K T = .ok st') :
    (st.submitted_questions.contains K = true ∧ st' = st) ∨
    (st.submitted_questions.contains K = false ∧
     st'.submitted_questions = st.submitted_questions ∧
     (∀ x ∈ st.entry.errors, x ∈ st'.entry.errors) ∧
     (st'.trace = st.trace ++ [⟨K, T, true, true⟩] ∨
      (st'.trace = st.trace ++ [⟨K, T, true, false⟩] ∧
        ∃ m, ("Failed to submit placeholder for " ++ T ++ ": " ++ m) ∈ st'.entry.errors))) := by
  unfold processPlaceholder at h
  simp only [] at h
  by_cases hc : st.submitted_questions.contains K = true
  · rw [if_pos hc] at h
    exact Or.inl ⟨hc, (Except.ok.inj h).symm⟩
  · rw [if_neg hc] at h
    cases hatt : placeholderAttempt env ed sid T nsc with
    | ok job =>
      rw [hatt] at h
      simp only [] at h
      obtain rfl := Except.ok.inj h
      exact Or.inr ⟨by simpa using hc, rfl, fun x hx => hx, Or.inl rfl⟩
    | error e =>
      rw [hatt] at h
      simp only [] at h
      by_cases hv : e.isValueError = true
      · rw [if_pos hv] at h
        obtain rfl := Except.ok.inj h
        refine Or.inr ⟨by simpa using hc, rfl, fun x hx => by simp [hx], Or.inr ⟨rfl, e.msg, ?_⟩⟩
        simp
      · rw [if_neg hv] at h
        exact absurd h (by simp)

theorem isValueError_caught (e : PyExc) (h : e.isValueError = true) :
    e.caughtByFileLoop = true := by
  cases e <;> simp_all [PyExc.isValueError, PyExc.caughtByFileLoop]

theorem fileFold_inv (env : RemoteEnv) (ed : SubmissionEditData) (sid : Nat)
    (fqm : List (String × String)) (files : List (String × String)) :
    ∀ (st st' : ProcState),
      files.foldlM (fun st fp => processFile env ed sid fqm st fp.1 fp.2) st = .ok st' →
      (∀ x ∈ st.entry.errors, x ∈ st'.entry.errors) ∧
      (coveredInv st → coveredInv st') ∧
      (fileKeysTruthy st → fileKeysTruthy st') ∧
      (∀ q : SubmitAttempt → Bool, (∀ ev, q ev = true → ev.placeholder = true) →
        st'.trace.countP q = st.trace.countP q) ∧
      (placeholderErrorsRecorded st → placeholderErrorsRecorded st') := by
  induction files with
  | nil =>
    intro st st' h
    obtain rfl : st = st' := by
      simpa [List.foldlM, pure, Except.pure] using h
    exact ⟨fun x hx => hx, id, id, fun q _ => rfl, id⟩
  | cons fp rest ih =>
    intro st st' h
    rw [List.foldlM_cons] at h
    cases hstep : processFile env ed sid fqm st fp.1 fp.2 with
    | error e =>
      rw [hstep, except_bind_error] at h
      exact absurd h (by simp)
    | ok st₀ =>
      rw [hstep, except_bind_ok] at h
      obtain ⟨herr, hshape⟩ := processFile_shape env ed sid fqm st fp.1 fp.2 st₀ hstep
      obtain ⟨herr₁, hcov₁, htruthy₁, hcount₁, hrec₁⟩ := ih st₀ st' h
      have herr₀ : ∀ x ∈ st.entry.errors, x ∈ st'.entry.errors :=
        fun x hx => herr₁ x (herr x hx)
      rcases hshape with ⟨hsq, htr⟩ | ⟨K, T, hK, hsq, htr⟩ | ⟨K, T, hK, hsq, htr⟩
      · refine ⟨herr₀, ?_, ?_, ?_, ?_⟩
        · intro hcov
          refine hcov₁ ?_
          intro k
          rw [hsq, htr]
          exact hcov k
        · intro ht
          refine htruthy₁ ?_
          intro ev hev
          rw [htr] at hev
          exact ht ev hev
        · intro q hq
          rw [hcount₁ q hq, htr]
        · intro hr
          refine hrec₁ ?_
          intro ev hev hp ho
          rw [htr] at hev
          obtain ⟨m, hm⟩ := hr ev hev hp ho
          exact ⟨m, herr _ hm⟩
      · refine ⟨herr₀, ?_, ?_, ?_, ?_⟩
        · intro hcov
          refine hcov₁ ?_
          intro k
          rw [hsq, htr, List.contains_eq_any_beq, List.any_append, List.any_append,
            ← List.contains_eq_any_beq, hcov k]
          by_cases hkK : k = K
          · simp [hkK, List.any_cons]
          · have h₁ : (k == K) = false := by simp [hkK]
            have h₂ : (K == k) = false := by simp [Ne.symm hkK]
            simp [List.any_cons, h₁, h₂]
        · intro ht
          refine htruthy₁ ?_
          intro ev hev hp
          rw [htr] at hev
          rcases List.mem_append.mp hev with hev | hev
          · exact ht ev hev hp
          · obtain rfl : ev = ⟨K, T, false, true⟩ := by simpa using hev
            exact hK
        · intro q hq
          rw [hcount₁ q hq, htr, List.countP_append]
          have : q ⟨K, T, false, true⟩ = false := by
            cases hqe : q ⟨K, T, false, true⟩ with
            | false => rfl
            | true => simpa using hq _ hqe
          simp [List.countP_cons, this]
        · intro hr
          refine hrec₁ ?_
          intro ev hev hp ho
          rw [htr] at hev
          rcases List.mem_append.mp hev with hev | hev
          · obtain ⟨m, hm⟩ := hr ev hev hp ho
            exact ⟨m, herr _ hm⟩
          · obtain rfl : ev = ⟨K, T, false, true⟩ := by simpa using hev
            simp at hp
      · refine ⟨herr₀, ?_, ?_, ?_, ?_⟩
        · intro hcov
          refine hcov₁ ?_
          intro k
          rw [hsq, htr, List.any_append, hcov k]
          simp [List.any_cons]
        · intro ht
          refine htruthy₁ ?_
          intro ev hev hp
          rw [htr] at hev
          rcases List.mem_append.mp hev with hev | hev
          · exact ht ev hev hp
          · obtain rfl : ev = ⟨K, T, false, false⟩ := by simpa using hev
            exact hK
        · intro q hq
          rw [hcount₁ q hq, htr, List.countP_append]
          have : q ⟨K, T, false, false⟩ = false := by
            cases hqe : q ⟨K, T, false, false⟩ with
            | false => rfl
            | true => simpa using hq _ hqe
          simp [List.countP_cons, this]
        · intro hr
          refine hrec₁ ?_
          intro ev hev hp ho
          rw [htr] at hev
          rcases List.mem_append.mp hev with hev | hev
          · obtain ⟨m, hm⟩ := hr ev hev hp ho
            exact ⟨m, herr _ hm⟩
          · obtain rfl : ev = ⟨K, T, false, false⟩ := by simpa using hev
            simp at hp

theorem phFold_inv (env : RemoteEnv) (ed : SubmissionEditData) (sid : Nat)
    (nsc : String) (fqm : List (String × String)) :
    ∀ (st st' : ProcState),
      fqm.foldlM (fun st kv => processPlaceholder env ed sid nsc st kv.1 kv.2) st = .ok st' →
      st'.submitted_questions = st.submitted_questions ∧
      (∀ x ∈ st.entry.errors, x ∈ st'.entry.errors) ∧
      (∀ q : SubmitAttempt → Bool, (∀ ev, q ev = true → ev.placeholder = false) →
        st'.trace.countP q = st.trace.countP q ∧ st'.trace.any q = st.trace.any q) ∧
      (placeholderErrorsRecorded st → placeholderErrorsRecorded st') := by
  induction fqm with
  | nil =>
    intro st st' h
    obtain rfl : st = st' := by
      simpa [List.foldlM, pure, Except.pure] using h
    exact ⟨rfl, fun x hx => hx, fun q _ => ⟨rfl, rfl⟩, id⟩
  | cons kv rest ih =>
    intro st st' h
    rw [List.foldlM_cons] at h
    cases hstep : processPlaceholder env ed sid nsc st kv.1 kv.2 with
    | error e =>
      rw [hstep, except_bind_error] at h
      exact absurd h (by simp)
    | ok st₀ =>
      rw [hstep, except_bind_ok] at h
      obtain ⟨hsq₁, herr₁, hq₁, hrec₁⟩ := ih st₀ st' h
      rcases processPlaceholder_shape env ed sid nsc st kv.1 kv.2 st₀ hstep with
        ⟨hcK, rfl⟩ | ⟨hcK, hsq, herr, htr⟩
      · exact ⟨hsq₁, herr₁, hq₁, hrec₁⟩
      · have herr₀ : ∀ x ∈ st.entry.errors, x ∈ st'.entry.errors :=
          fun x hx => herr₁ x (herr x hx)
      -- the appended event in either sub-case is a placeholder event
        have hq₀ : ∀ q : SubmitAttempt → Bool,
            (∀ ev, q ev = true → ev.placeholder = false) →
            st₀.trace.countP q = st.trace.countP q ∧
              st₀.trace.any q = st.trace.any q := by
          intro q hq
          have hqe : ∀ b, q ⟨kv.1, kv.2, true, b⟩ = false := by
            intro b
            cases hqe₁ : q ⟨kv.1, kv.2, true, b⟩ with
            | false => rfl
            | true => simpa using hq _ hqe₁
          rcases htr with htr | ⟨htr, -⟩ <;>
            (rw [htr, List.countP_append, List.any_append]
             simp [List.countP_cons, List.any_cons, hqe])
        refine ⟨hsq₁.trans hsq, herr₀, ?_, ?_⟩
        · intro q hq
          obtain ⟨hc₀, ha₀⟩ := hq₀ q hq
          obtain ⟨hc₁, ha₁⟩ := hq₁ q hq
          exact ⟨hc₁.trans hc₀, ha₁.trans ha₀⟩
        · intro hr
          refine hrec₁ ?_
          intro ev hev hp ho
          rcases htr with htr | ⟨htr, hmsg⟩ <;> rw [htr] at hev
          · rcases List.mem_append.mp hev with hev | hev
            · obtain ⟨m, hm⟩ := hr ev hev hp ho
              exact ⟨m, herr _ hm⟩
            · obtain rfl : ev = ⟨kv.1, kv.2, true, true⟩ := by simpa using hev
              simp at ho
          · rcases List.mem_append.mp hev with hev | hev
            · obtain ⟨m, hm⟩ := hr ev hev hp ho
              exact ⟨m, herr _ hm⟩
            · obtain rfl : ev = ⟨kv.1, kv.2, true, false⟩ := by simpa using hev
              exact hmsg

theorem phFold_count_notmem (env : RemoteEnv) (ed : SubmissionEditData)
    (sid : Nat) (nsc : String) (fqm : List (String × String)) :
    ∀ (st st' : ProcState) (K : String),
      fqm.foldlM (fun st kv => processPlaceholder env ed sid nsc st kv.1 kv.2) st = .ok st' →
      K ∉ fqm.map Prod.fst →
      st'.trace.countP (fun ev => ev.placeholder && (ev.question_key == K)) =
        st.trace.countP (fun ev => ev.placeholder && (ev.question_key == K)) := by
  induction fqm with
  | nil =>
    intro st st' K h _
    obtain rfl : st = st' := by
      simpa [List.foldlM, pure, Except.pure] using h
    rfl
  | cons kv rest ih =>
    intro st st' K h hK
    rw [List.foldlM_cons] at h
    cases hstep : processPlaceholder env ed sid nsc st kv.1 kv.2 with
    | error e =>
      rw [hstep, except_bind_error] at h
      exact absurd h (by simp)
    | ok st₀ =>
      rw [hstep, except_bind_ok] at h
      have hne : kv.1 ≠ K := fun hh => hK (by simp [hh])
      have hrest : K ∉ rest.map Prod.fst := fun hh => hK (by simp [hh])
      have hbeq : (kv.1 == K) = false := by simp [hne]
      rw [ih st₀ st' K h hrest]
      rcases processPlaceholder_shape env ed sid nsc st kv.1 kv.2 st₀ hstep with
        ⟨-, rfl⟩ | ⟨-, -, -, htr | ⟨htr, -⟩⟩
      · rfl
      · rw [htr, List.countP_append]
        simp [List.countP_cons, hbeq]
      · rw [htr, List.countP_append]
        simp [List.countP_cons, hbeq]

theorem phFold_count_mem (env : RemoteEnv) (ed : SubmissionEditData)
    (sid : Nat) (nsc : String) (fqm : List (String × String)) :
    ∀ (st st' : ProcState) (K T : String),
      fqm.foldlM (fun st kv => processPlaceholder env ed sid nsc st kv.1 kv.2) st = .ok st' →
      (K, T) ∈ fqm →
      (fqm.map Prod.fst).Nodup →
      st'.trace.countP (fun ev => ev.placeholder && (ev.question_key == K)) =
        st.trace.countP (fun ev => ev.placeholder && (ev.question_key == K)) +
          (if st.submitted_questions.contains K then 0 else 1) := by
  induction fqm with
  | nil =>
    intro st st' K T h hmem _
    exact absurd hmem (by simp)
  | cons kv rest ih =>
    intro st st' K T h hmem hnd
    obtain ⟨k₀, t₀⟩ := kv
    rw [List.map_cons, List.nodup_cons] at hnd
    rw [List.foldlM_cons] at h
    cases hstep : processPlaceholder env ed sid nsc st k₀ t₀ with
    | error e =>
      rw [hstep, except_bind_error] at h
      exact absurd h (by simp)
    | ok st₀ =>
      rw [hstep, except_bind_ok] at h
      rcases List.mem_cons.mp hmem with heq | hmem₁
      · obtain ⟨rfl, rfl⟩ : K = k₀ ∧ T = t₀ := by simpa using heq
        have hKrest : K ∉ rest.map Prod.fst := hnd.1
        rw [phFold_count_notmem env ed sid nsc rest st₀ st' K h hKrest]
        rcases processPlaceholder_shape env ed sid nsc st K T st₀ hstep with
          ⟨hcK, rfl⟩ | ⟨hcK, -, -, htr | ⟨htr, -⟩⟩
        · rw [if_pos hcK, Nat.add_zero]
        · rw [hcK, htr, List.countP_append]
          simp [List.countP_cons]
        · rw [hcK, htr, List.countP_append]
          simp [List.countP_cons]
      · have hne : k₀ ≠ K := by
          intro hh
          exact hnd.1 (hh ▸ (List.mem_map.mpr ⟨(K, T), hmem₁, rfl⟩))
        have hbeq : (k₀ == K) = false := by simp [hne]
        rcases processPlaceholder_shape env ed sid nsc st k₀ t₀ st₀ hstep with
          ⟨-, rfl⟩ | ⟨-, hsq, -, htr | ⟨htr, -⟩⟩
        · exact ih st₀ st' K T h hmem₁ hnd.2
        · rw [ih st₀ st' K T h hmem₁ hnd.2, htr, List.countP_append, hsq]
          simp [List.countP_cons, hbeq]
        · rw [ih st₀ st' K T h hmem₁ hnd.2, htr, List.countP_append, hsq]
          simp [List.countP_cons, hbeq]

theorem process_run_split (env : RemoteEnv) (fname : String)
    (files : List (String × String)) (fsm : List (String × CourseUser))
    (usm : List (Nat × AssessmentSubmission)) (fqm : List (String × String))
    (entry₀ : SubmissionReport) (nsc : String)
    (jobs : List JobSubmitted) (entry : SubmissionReport) (tr : List SubmitAttempt)
    (student : CourseUser) (hs : pyGet fsm fname = some student)
    (sub : AssessmentSubmission) (hsub : pyGet usm student.id = some sub)
    (sid : Nat) (hsid : sub.id = some sid)
    (h : _process_user_files env fname files fsm usm fqm entry₀ nsc =
      .ok (jobs, entry, tr)) :
    ∃ st₁ st₂ : ProcState,
      files.foldlM
          (fun st fp => processFile env (env.edit sid) sid fqm st fp.1 fp.2)
          ⟨[], [],
            { entry₀ with
              student := some ⟨student.name, student.email, toString student.id⟩ }, []⟩ =
        .ok st₁ ∧
      fqm.foldlM
          (fun st kv => processPlaceholder env (env.edit sid) sid nsc st kv.1 kv.2)
          st₁ = .ok st₂ ∧
      jobs = st₂.jobs ∧ entry = st₂.entry ∧ tr = st₂.trace := by
  unfold _process_user_files at h
  rw [hs] at h
  simp only [] at h
  rw [hsub] at h
  simp only [] at h
  rw [hsid] at h
  simp only [] at h
  cases h₁ : files.foldlM
      (fun st fp => processFile env (env.edit sid) sid fqm st fp.1 fp.2)
      ⟨[], [],
        { entry₀ with
          student := some ⟨student.name, student.email, toString student.id⟩ }, []⟩ with
  | error e =>
    rw [h₁, except_bind_error] at h
    exact absurd h (by simp)
  | ok st₁ =>
    rw [h₁, except_bind_ok] at h
    cases h₂ : fqm.foldlM
        (fun st kv => processPlaceholder env (env.edit sid) sid nsc st kv.1 kv.2) st₁ with
    | error e =>
      rw [h₂, except_bind_error] at h
      exact absurd h (by simp)
    | ok st₂ =>
      rw [h₂, except_bind_ok] at h
      obtain ⟨h₃, h₄, h₅⟩ : st₂.jobs = jobs ∧ st₂.entry = entry ∧ st₂.trace = tr := by
        simpa [pure, Except.pure] using h
      exact ⟨st₁, st₂, rfl, h₂, h₃.symm, h₄.symm, h₅.symm⟩

theorem per_key_placeholder_count (env : RemoteEnv) (fname : String)
    (files : List (String × String)) (fsm : List (String × CourseUser))
    (usm : List (Nat × AssessmentSubmission)) (fqm : List (String × String))
    (entry₀ : SubmissionReport) (nsc : String)
    (jobs : List JobSubmitted) (entry : SubmissionReport) (tr : List SubmitAttempt)
    (student : CourseUser) (hs : pyGet fsm fname = some student)
    (sub : AssessmentSubmission) (hsub : pyGet usm student.id = some sub)
    (sid : Nat) (hsid : sub.id = some sid)
    (hnd : (fqm.map Prod.fst).Nodup)
    (h : _process_user_files env fname files fsm usm fqm entry₀ nsc =
      .ok (jobs, entry, tr))
    (K T : String) (hmem : (K, T) ∈ fqm) :
    tr.countP (fun ev => ev.placeholder && (ev.question_key == K)) =
      if tr.any (fun ev => !ev.placeholder && ev.ok && (ev.question_key == K)) then 0
      else 1 := by
  obtain ⟨st₁, st₂, h₁, h₂, -, -, rfl⟩ :=
    process_run_split env fname files fsm usm fqm entry₀ nsc jobs entry tr
      student hs sub hsub sid hsid h
  have hq : ∀ ev : SubmitAttempt,
      (fun ev => ev.placeholder && (ev.question_key == K)) ev = true →
      ev.placeholder = true := by
    intro ev hev
    exact (Bool.and_eq_true_iff.mp hev).1
  have hr : ∀ ev : SubmitAttempt,
      (fun ev => !ev.placeholder && ev.ok && (ev.question_key == K)) ev = true →
      ev.placeholder = false := by
    intro ev hev
    have := (Bool.and_eq_true_iff.mp (Bool.and_eq_true_iff.mp hev).1).1
    simpa using this
  obtain ⟨-, hcov₁, -, hcount₁, -⟩ := fileFold_inv env (env.edit sid) sid fqm files _ st₁ h₁
  have hcov : coveredInv st₁ := hcov₁ (by intro k; rfl)
  have hcnt0 : st₁.trace.countP (fun ev => ev.placeholder && (ev.question_key == K)) = 0 :=
    hcount₁ _ hq
  obtain ⟨-, -, hqpres, -⟩ := phFold_inv env (env.edit sid) sid nsc fqm st₁ st₂ h₂
  have hany : st₂.trace.any (fun ev => !ev.placeholder && ev.ok && (ev.question_key == K)) =
      st₁.submitted_questions.contains K := by
    rw [(hqpres _ hr).2, hcov K]
  rw [phFold_count_mem env (env.edit sid) sid nsc fqm st₁ st₂ K T h₂ hmem hnd, hcnt0, hany]
  by_cases hc : st₁.submitted_questions.contains K = true <;> simp [hc]

theorem get_question_error (qs : List QuestionInfo) (t : String) (e : PyExc)
    (h : get_question qs t = .error e) : e.isValueError = true := by
  unfold get_question at h
  cases hf : qs.find? (fun q => q.question_title == t) with
  | some q => rw [hf] at h; exact absurd h (by simp)
  | none =>
    rw [hf] at h
    obtain rfl := (Except.error.inj h).symm
    rfl

theorem get_answer_error (as : List ProgrammingAnswerInfo) (i : Nat) (e : PyExc)
    (h : get_answer as i = .error e) : e.isValueError = true := by
  unfold get_answer at h
  cases hf : as.find? (fun a => a.id == i) with
  | some a => rw [hf] at h; exact absurd h (by simp)
  | none =>
    rw [hf] at h
    obtain rfl := (Except.error.inj h).symm
    rfl

theorem get_question_answer_error (se : SubmissionEditData) (t : String)
    (e : PyExc) (h : get_question_answer se t = .error e) :
    e.isValueError = true := by
  unfold get_question_answer at h
  cases hq : get_question se.questions t with
  | error e₁ =>
    rw [hq, except_bind_error] at h
    obtain rfl := (Except.error.inj h).symm
    exact get_question_error se.questions t _ hq
  | ok q =>
    rw [hq, except_bind_ok] at h
    cases hai : q.answer_id with
    | none =>
      rw [hai] at h
      obtain rfl := (Except.error.inj h).symm
      rfl
    | some i =>
      rw [hai] at h
      exact get_answer_error se.answers i e h

theorem submit_answer_error_source
    (f : ProgrammingAnswerPayload → Except PyExc JobSubmitted)
    (a : ProgrammingAnswerInfo) (c : String) (e : PyExc)
    (h : submit_answer f a c = .error e) :
    e.isValueError = true ∨ ∃ p, f p = .error e := by
  unfold submit_answer at h
  cases hfa : a.fields.files_attributes with
  | nil =>
    rw [hfa] at h
    obtain rfl := (Except.error.inj h).symm
    exact Or.inl rfl
  | cons fi rest =>
    rw [hfa] at h
    simp only [] at h
    cases hp : f ⟨a.id, [⟨fi.id, fi.filename, c⟩]⟩ with
    | ok job => rw [hp] at h; exact absurd h (by simp [Except.map])
    | error e₁ =>
      rw [hp] at h
      obtain rfl : e₁ = e := by simpa [Except.map] using h
      exact Or.inr ⟨_, hp⟩

theorem processFile_ok (env : RemoteEnv) (ed : SubmissionEditData) (sid : Nat)
    (fqm : List (String × String)) (st : ProcState) (filename filepath : String)
    (hsubmit : ∀ p e, env.submitResult sid p = .error e → e.isValueError = true)
    (hread : ∀ path e, env.readFile path = .error e → e.caughtByFileLoop = true) :
    ∃ st', processFile env ed sid fqm st filename filepath = .ok st' := by
  unfold processFile
  by_cases hq : pyTruthyStr (get_question_key filename fqm) = false
  · rw [if_pos hq]
    exact ⟨_, rfl⟩
  · rw [if_neg hq]
    simp only []
    cases hatt : (do
        let answer ← get_question_answer ed
          ((pyGet fqm ((get_question_key filename fqm).getD "")).getD "")
        let content ← env.readFile filepath
        let pj ← submit_answer (env.submitResult sid) answer content
        pure pj.2 : Except PyExc JobSubmitted) with
    | ok job => exact ⟨_, rfl⟩
    | error e =>
      have hc : e.caughtByFileLoop = true := by
        cases hqa : get_question_answer ed
            ((pyGet fqm ((get_question_key filename fqm).getD "")).getD "") with
        | error e₁ =>
          rw [hqa, except_bind_error] at hatt
          obtain rfl := (Except.error.inj hatt).symm
          exact isValueError_caught _ (get_question_answer_error _ _ _ hqa)
        | ok answer =>
          rw [hqa, except_bind_ok] at hatt
          cases hrd : env.readFile filepath with
          | error e₂ =>
            rw [hrd, except_bind_error] at hatt
            obtain rfl := (Except.error.inj hatt).symm
            exact hread _ _ hrd
          | ok content =>
            rw [hrd, except_bind_ok] at hatt
            cases hsa : submit_answer (env.submitResult sid) answer content with
            | ok pj => rw [hsa, except_bind_ok] at hatt; exact absurd hatt (by simp [pure, Except.pure])
            | error e₃ =>
              rw [hsa, except_bind_error] at hatt
              obtain rfl := (Except.error.inj hatt).symm
              rcases submit_answer_error_source _ _ _ _ hsa with hv | ⟨p, hp⟩
              · exact isValueError_caught _ hv
              · exact isValueError_caught _ (hsubmit _ _ hp)
      simp only []
      rw [hc]
      exact ⟨_, rfl⟩

theorem placeholderAttempt_error (env : RemoteEnv) (ed : SubmissionEditData)
    (sid : Nat) (t nsc : String) (e : PyExc)
    (hsubmit : ∀ p e, env.submitResult sid p = .error e → e.isValueError = true)
    (h : placeholderAttempt env ed sid t nsc = .error e) : e.isValueError = true := by
  unfold placeholderAttempt at h
  cases hqa : get_question_answer ed t with
  | error e₁ =>
    rw [hqa, except_bind_error] at h
    obtain rfl := (Except.error.inj h).symm
    exact get_question_answer_error _ _ _ hqa
  | ok answer =>
    rw [hqa, except_bind_ok] at h
    cases hsa : submit_answer (env.submitResult sid) answer nsc with
    | ok pj => rw [hsa, except_bind_ok] at h; exact absurd h (by simp [pure, Except.pure])
    | error e₃ =>
      rw [hsa, except_bind_error] at h
      obtain rfl := (Except.error.inj h).symm
      rcases submit_answer_error_source _ _ _ _ hsa with hv | ⟨p, hp⟩
      · exact hv
      · exact hsubmit _ _ hp

theorem processPlaceholder_ok (env : RemoteEnv) (ed : SubmissionEditData)
    (sid : Nat) (nsc : String) (st : ProcState) (K T : String)
    (hsubmit : ∀ p e, env.submitResult sid p = .error e → e.isValueError = true) :
    ∃ st', processPlaceholder env ed sid nsc st K T = .ok st' := by
  unfold processPlaceholder
  by_cases hc : st.submitted_questions.contains K = true
  · rw [if_pos hc]
    exact ⟨st, rfl⟩
  · rw [if_neg hc]
    simp only []
    cases hatt : placeholderAttempt env ed sid T nsc with
    | ok job => exact ⟨_, rfl⟩
    | error e =>
      simp only []
      rw [placeholderAttempt_error env ed sid T nsc e hsubmit hatt]
      exact ⟨_, rfl⟩

theorem foldlM_ok_of_steps {α : Type}
    (f : ProcState → α → Except PyExc ProcState) (l : List α)
    (hf : ∀ st x, x ∈ l → ∃ st', f st x = .ok st') :
    ∀ st, ∃ st', l.foldlM f st = .ok st' := by
  induction l with
  | nil =>
    intro st
    exact ⟨st, rfl⟩
  | cons x rest ih =>
    intro st
    obtain ⟨st₀, h₀⟩ := hf st x (by simp)
    obtain ⟨st', h'⟩ := ih (fun st y hy => hf st y (List.mem_cons_of_mem _ hy)) st₀
    exact ⟨st', by rw [List.foldlM_cons, h₀, except_bind_ok, h']⟩

theorem process_ok_and_placeholder_errors_recorded (env : RemoteEnv)
    (fname : String) (files : List (String × String))
    (fsm : List (String × CourseUser))
    (usm : List (Nat × AssessmentSubmission)) (fqm : List (String × String))
    (entry₀ : SubmissionReport) (nsc : String)
    (hsubmit : ∀ sid p e, env.submitResult sid p = .error e → e.isValueError = true)
    (hread : ∀ path e, env.readFile path = .error e → e.caughtByFileLoop = true)
    (hids : ∀ k sub, pyGet usm k = some sub → sub.id ≠ none) :
    ∃ jobs entry tr,
      _process_user_files env fname files fsm usm fqm entry₀ nsc =
        .ok (jobs, entry, tr) ∧
      ∀ ev ∈ tr, ev.placeholder = true → ev.ok = false →
        ∃ m, ("Failed to submit placeholder for " ++ ev.question_title ++ ": " ++ m) ∈
          entry.errors := by
  unfold _process_user_files
  cases hs : pyGet fsm fname with
  | none =>
    refine ⟨_, _, [], rfl, ?_⟩
    intro ev hev
    exact absurd hev (by simp)
  | some student =>
    simp only []
    cases hsub : pyGet usm student.id with
    | none =>
      refine ⟨_, _, [], rfl, ?_⟩
      intro ev hev
      exact absurd hev (by simp)
    | some sub =>
      simp only []
      cases hsid : sub.id with
      | none => exact absurd hsid (hids _ _ hsub)
      | some sid =>
        simp only []
        obtain ⟨st₁, h₁⟩ :=
          foldlM_ok_of_steps
            (fun st fp => processFile env (env.edit sid) sid fqm st fp.1 fp.2) files
            (fun st fp _ =>
              processFile_ok env (env.edit sid) sid fqm st fp.1 fp.2
                (hsubmit sid) hread)
            ⟨[], [],
              { entry₀ with
                student := some ⟨student.name, student.email, toString student.id⟩ }, []⟩
        obtain ⟨st₂, h₂⟩ :=
          foldlM_ok_of_steps
            (fun st kv => processPlaceholder env (env.edit sid) sid nsc st kv.1 kv.2) fqm
            (fun st kv _ =>
              processPlaceholder_ok env (env.edit sid) sid nsc st kv.1 kv.2
                (hsubmit sid)) st₁
        refine ⟨st₂.jobs, st₂.entry, st₂.trace,
          by rw [h₁, except_bind_ok, h₂, except_bind_ok]; rfl, ?_⟩
        obtain ⟨-, -, -, -, hrec₁⟩ :=
          fileFold_inv env (env.edit sid) sid fqm files _ st₁ h₁
        obtain ⟨-, -, -, hrec₂⟩ :=
          phFold_inv env (env.edit sid) sid nsc fqm st₁ st₂ h₂
        have hrec : placeholderErrorsRecorded st₂ := by
          refine hrec₂ (hrec₁ ?_)
          intro ev hev
          exact absurd hev (by simp)
        exact hrec

theorem except_bind_ok_inv {ε α β : Type} (x : Except ε α) (g : α → Except ε β)
    (r : β) (h : (x >>= g) = .ok r) : ∃ a, x = .ok a ∧ g a = .ok r := by
  cases x with
  | error e =>
    rw [except_bind_error] at h
    exact absurd h (by simp)
  | ok a =>
    rw [except_bind_ok] at h
    exact ⟨a, rfl, h⟩

theorem pysort_sorted (l : List String) : (pysort l).Sorted (· ≤ ·) :=
  List.sorted_insertionSort _ l

theorem submit_answers_report_shape (env : RemoteEnv)
    (user_files : List (String × List (String × String)))
    (fsm : List (String × CourseUser)) (usm : List (Nat × AssessmentSubmission))
    (fqm : List (String × String)) (nsc : String)
    (jobs : List JobSubmitted) (report : List (String × SubmissionReport))
    (h : submit_answers env user_files fsm usm fqm nsc = .ok (jobs, report)) :
    ∀ kv ∈ report, ∃ e, kv.2 = sortEntry e := by
  unfold submit_answers at h
  obtain ⟨acc, -, hpure⟩ := except_bind_ok_inv _ _ _ h
  obtain ⟨-, hrep⟩ : acc.1 = jobs ∧
      acc.2.map (fun kv => (kv.1, sortEntry kv.2)) = report := by
    have := Except.ok.inj hpure
    exact ⟨congrArg Prod.fst this, congrArg Prod.snd this⟩
  intro kv hkv
  rw [← hrep] at hkv
  obtain ⟨kv₀, -, rfl⟩ := List.mem_map.mp hkv
  exact ⟨kv₀.2, rfl⟩

theorem dinsert_not_mem {β : Type} (l : List (String × β)) (k : String) (v : β)
    (h : k ∉ l.map Prod.fst) : dinsert l k v = l ++ [(k, v)] := by
  induction l with
  | nil => rfl
  | cons kv rest ih =>
    obtain ⟨k₀, v₀⟩ := kv
    have hne : k₀ ≠ k := fun hh => h (by simp [hh])
    unfold dinsert
    rw [if_neg (by simpa using hne), ih (fun hh => h (by simp [hh]))]
    simp

theorem submit_fold_keys (env : RemoteEnv)
    (fsm : List (String × CourseUser)) (usm : List (Nat × AssessmentSubmission))
    (fqm : List (String × String)) (nsc : String)
    (ufs : List (String × List (String × String))) :
    ∀ (accJ : List JobSubmitted) (acc : List (String × SubmissionReport))
      (acc' : List JobSubmitted × List (String × SubmissionReport)),
      ufs.foldlM
          (fun (acc : List JobSubmitted × List (String × SubmissionReport)) kv => do
            let r ← _process_user_files env kv.1 kv.2 fsm usm fqm
              _create_submission_report_entry nsc
            pure (acc.1 ++ r.1, dinsert acc.2 kv.1 r.2.1)) (accJ, acc) = .ok acc' →
      (∀ k ∈ ufs.map Prod.fst, k ∉ acc.map Prod.fst) →
      (ufs.map Prod.fst).Nodup →
      acc'.2.map Prod.fst = acc.map Prod.fst ++ ufs.map Prod.fst := by
  induction ufs with
  | nil =>
    intro accJ acc acc' h _ _
    obtain rfl : (accJ, acc) = acc' := by
      simpa [List.foldlM, pure, Except.pure] using h
    simp
  | cons kv rest ih =>
    intro accJ acc acc' h hdisj hnd
    rw [List.map_cons, List.nodup_cons] at hnd
    rw [List.foldlM_cons] at h
    obtain ⟨s, hstep, hcont⟩ := except_bind_ok_inv _ _ _ h
    obtain ⟨r, -, hpure⟩ := except_bind_ok_inv _ _ _ hstep
    obtain rfl : (accJ ++ r.1, dinsert acc kv.1 r.2.1) = s := by
      simpa [pure, Except.pure] using hpure
    have hk : kv.1 ∉ acc.map Prod.fst := hdisj kv.1 (by simp)
    have hkeys : (dinsert acc kv.1 r.2.1).map Prod.fst = acc.map Prod.fst ++ [kv.1] := by
      rw [dinsert_not_mem acc kv.1 r.2.1 hk]
      simp
    have hdisj' : ∀ k ∈ rest.map Prod.fst,
        k ∉ (dinsert acc kv.1 r.2.1).map Prod.fst := by
      intro k hkr
      rw [hkeys]
      intro hmem
      rcases List.mem_append.mp hmem with hmem | hmem
      · exact hdisj k (by simp [hkr]) hmem
      · obtain rfl : k = kv.1 := by simpa using hmem
        exact hnd.1 hkr
    have := ih (accJ ++ r.1) (dinsert acc kv.1 r.2.1) acc' hcont hdisj' hnd.2
    rw [this, hkeys, List.append_assoc]
    simp

/-! ## Claim theorems for the Submission Executor -/

/-- Counterexample for C1: with the route table fqmShared, in which two
patterns map to the same question title Q1, a run submits alice's matching
file to Q1 AND writes the placeholder to Q1 (via the second, uncovered
pattern key) — the title receives both, contradicting never-both. -/
theorem question_title_gets_both_file_and_placeholder :
    _process_user_files envOk "alice" [("a1", "p")] fsm1 usm1 fqmShared
        _create_submission_report_entry "# No submission" =
      .ok ([⟨0⟩, ⟨0⟩],
        ⟨some ⟨"Alice", "alice@example.com", "7"⟩, [], ["a1"], [], ["Q1"]⟩,
        [⟨"a", "Q1", false, true⟩, ⟨"b", "Q1", true, true⟩]) ∧
    ([⟨"a", "Q1", false, true⟩, ⟨"b", "Q1", true, true⟩] : List SubmitAttempt).countP
        (fun ev => !ev.placeholder && (ev.question_title == "Q1")) = 1 ∧
    ([⟨"a", "Q1", false, true⟩, ⟨"b", "Q1", true, true⟩] : List SubmitAttempt).countP
        (fun ev => ev.placeholder && (ev.question_title == "Q1")) = 1 :=
  ⟨rfl, by decide, by decide⟩

/-- C1 amended: the executor's coverage discipline is per route KEY, not per
question title: for every resolved student with a submission and every key
of the route table (keys unique as in a Python dict), the number of
placeholder attempts for that key is 0 when some file was successfully
submitted under it and exactly 1 otherwise.  (Per TITLE the original claim
fails: several keys may share a title, and several files may match one key.) -/
theorem executor_per_key_file_xor_placeholder (env : RemoteEnv) (fname : String)
    (files : List (String × String)) (fsm : List (String × CourseUser))
    (usm : List (Nat × AssessmentSubmission)) (fqm : List (String × String))
    (entry₀ : SubmissionReport) (nsc : String)
    (jobs : List JobSubmitted) (entry : SubmissionReport) (tr : List SubmitAttempt)
    (student : CourseUser) (hs : pyGet fsm fname = some student)
    (sub : AssessmentSubmission) (hsub : pyGet usm student.id = some sub)
    (sid : Nat) (hsid : sub.id = some sid)
    (hnd : (fqm.map Prod.fst).Nodup)
    (h : _process_user_files env fname files fsm usm fqm entry₀ nsc =
      .ok (jobs, entry, tr))
    (K T : String) (hmem : (K, T) ∈ fqm) :
    tr.countP (fun ev => ev.placeholder && (ev.question_key == K)) =
      if tr.any (fun ev => !ev.placeholder && ev.ok && (ev.question_key == K)) then 0
      else 1 :=
  per_key_placeholder_count env fname files fsm usm fqm entry₀ nsc jobs entry tr
    student hs sub hsub sid hsid hnd h K T hmem

/-- Witness for C1: the per-key discipline evaluated on the concrete
fqmShared run — key b got no file, so exactly one placeholder attempt. -/
theorem executor_per_key_file_xor_placeholder_witness :
    ([⟨"a", "Q1", false, true⟩, ⟨"b", "Q1", true, true⟩] : List SubmitAttempt).countP
        (fun ev => ev.placeholder && (ev.question_key == "b")) =
      if ([⟨"a", "Q1", false, true⟩, ⟨"b", "Q1", true, true⟩] : List SubmitAttempt).any
          (fun ev => !ev.placeholder && ev.ok && (ev.question_key == "b")) then 0
      else 1 :=
  executor_per_key_file_xor_placeholder envOk "alice" [("a1", "p")] fsm1 usm1
    fqmShared _create_submission_report_entry "# No submission"
    [⟨0⟩, ⟨0⟩] ⟨some ⟨"Alice", "alice@example.com", "7"⟩, [], ["a1"], [], ["Q1"]⟩
    [⟨"a", "Q1", false, true⟩, ⟨"b", "Q1", true, true⟩]
    ⟨7, "Alice", "alice@example.com"⟩ (by decide) ⟨some 77, 7, "attempting"⟩
    (by decide) 77 rfl (by decide) rfl "b" "Q1" (by decide)

/-- Counterexample for C3: an OSError from the remote write during the
placeholder loop is NOT caught (the clause catches only ValueError) — it is
raised out of the executor instead of being recorded. -/
theorem placeholder_oserror_raises :
    _process_user_files envOsFail "alice" [] fsm1 usm1 [("a", "Q1")]
        _create_submission_report_entry "# No submission" =
      .error (.osError "connection reset") := rfl

/-- C3 amended: when every remote-write failure is a ValueError (the only
kind the placeholder loop's except clause catches) and every file-read
failure is of a kind the file loop catches, the executor returns normally,
and every failed placeholder attempt has its failure recorded in that key's
errors list ("Failed to submit placeholder for <title>: <message>") while
the loop continues.  Failures of other kinds propagate (see the
counterexample). -/
theorem placeholder_valueerror_caught_and_recorded (env : RemoteEnv)
    (fname : String) (files : List (String × String))
    (fsm : List (String × CourseUser))
    (usm : List (Nat × AssessmentSubmission)) (fqm : List (String × String))
    (entry₀ : SubmissionReport) (nsc : String)
    (hsubmit : ∀ sid p e, env.submitResult sid p = .error e → e.isValueError = true)
    (hread : ∀ path e, env.readFile path = .error e → e.caughtByFileLoop = true)
    (hids : ∀ k sub, pyGet usm k = some sub → sub.id ≠ none) :
    ∃ jobs entry tr,
      _process_user_files env fname files fsm usm fqm entry₀ nsc =
        .ok (jobs, entry, tr) ∧
      ∀ ev ∈ tr, ev.placeholder = true → ev.ok = false →
        ∃ m, ("Failed to submit placeholder for " ++ ev.question_title ++ ": " ++ m) ∈
          entry.errors :=
  process_ok_and_placeholder_errors_recorded env fname files fsm usm fqm entry₀
    nsc hsubmit hread hids

/-- Witness for C3: with a remote endpoint that rejects writes with a
ValueError, the run still returns normally and records the failure. -/
theorem placeholder_valueerror_caught_and_recorded_witness :
    ∃ jobs entry tr,
      _process_user_files envValFail "alice" [] fsm1 usm1 [("a", "Q1")]
          _create_submission_report_entry "# No submission" =
        .ok (jobs, entry, tr) ∧
      ∀ ev ∈ tr, ev.placeholder = true → ev.ok = false →
        ∃ m, ("Failed to submit placeholder for " ++ ev.question_title ++ ": " ++ m) ∈
          entry.errors :=
  placeholder_valueerror_caught_and_recorded envValFail "alice" [] fsm1 usm1
    [("a", "Q1")] _create_submission_report_entry "# No submission"
    (fun _ _ e h => by
      obtain rfl := (Except.error.inj h).symm
      rfl)
    (fun _ e h => by simp [envValFail] at h)
    (fun k sub h => by
      unfold usm1 at h
      rw [pyGet_cons] at h
      by_cases hk : ((7 : Nat) == k) = true
      · rw [if_pos hk] at h
        obtain rfl := Option.some.inj h
        simp
      · rw [if_neg hk] at h
        exact absurd h (by simp [pyGet_nil]))

/-- C7: every list field of every entry of the report returned by
submit_answers is lexicographically sorted. -/
theorem report_lists_sorted (env : RemoteEnv)
    (user_files : List (String × List (String × String)))
    (fsm : List (String × CourseUser)) (usm : List (Nat × AssessmentSubmission))
    (fqm : List (String × String)) (nsc : String)
    (jobs : List JobSubmitted) (report : List (String × SubmissionReport))
    (h : submit_answers env user_files fsm usm fqm nsc = .ok (jobs, report)) :
    ∀ kv ∈ report,
      List.Sorted (· ≤ ·) kv.2.errors ∧ List.Sorted (· ≤ ·) kv.2.submitted ∧
      List.Sorted (· ≤ ·) kv.2.no_match ∧ List.Sorted (· ≤ ·) kv.2.no_submission := by
  intro kv hkv
  obtain ⟨e, he⟩ :=
    submit_answers_report_shape env user_files fsm usm fqm nsc jobs report h kv hkv
  rw [he]
  exact ⟨pysort_sorted _, pysort_sorted _, pysort_sorted _, pysort_sorted _⟩

/-- Witness for C7: the four list fields of alice's concrete report entry. -/
theorem report_lists_sorted_witness :
    List.Sorted (· ≤ ·) ([] : List String) ∧
    List.Sorted (· ≤ ·) (["a1"] : List String) ∧
    List.Sorted (· ≤ ·) ([] : List String) ∧
    List.Sorted (· ≤ ·) (["Q1"] : List String) :=
  report_lists_sorted envOk [("alice", [("a1", "p")])] fsm1 usm1 fqmShared
    "# No submission" [⟨0⟩, ⟨0⟩]
    [("alice", ⟨some ⟨"Alice", "alice@example.com", "7"⟩, [], ["a1"], [], ["Q1"]⟩)]
    rfl
    ("alice", ⟨some ⟨"Alice", "alice@example.com", "7"⟩, [], ["a1"], [], ["Q1"]⟩)
    (by decide)

/-- C10: the report returned by submit_answers has exactly the key list of
the user_files mapping, in order — one entry per file-key, created
regardless of how that key's processing went. -/
theorem report_keys_match_user_files (env : RemoteEnv)
    (user_files : List (String × List (String × String)))
    (fsm : List (String × CourseUser)) (usm : List (Nat × AssessmentSubmission))
    (fqm : List (String × String)) (nsc : String)
    (jobs : List JobSubmitted) (report : List (String × SubmissionReport))
    (hnd : (user_files.map Prod.fst).Nodup)
    (h : submit_answers env user_files fsm usm fqm nsc = .ok (jobs, report)) :
    report.map Prod.fst = user_files.map Prod.fst := by
  unfold submit_answers at h
  obtain ⟨acc, hacc, hpure⟩ := except_bind_ok_inv _ _ _ h
  have hrep : acc.2.map (fun kv => (kv.1, sortEntry kv.2)) = report :=
    congrArg Prod.snd (Except.ok.inj hpure)
  have hkeys :=
    submit_fold_keys env fsm usm fqm nsc user_files [] [] acc hacc
      (by simp) hnd
  rw [← hrep, List.map_map]
  simpa using hkeys

/-- Witness for C10: the concrete run's report keys equal its input keys. -/
theorem report_keys_match_user_files_witness :
    ([("alice", (⟨some ⟨"Alice", "alice@example.com", "7"⟩, [], ["a1"], [], ["Q1"]⟩ :
        SubmissionReport))].map Prod.fst) =
      ([("alice", [("a1", "p")])].map Prod.fst) :=
  report_keys_match_user_files envOk [("alice", [("a1", "p")])] fsm1 usm1
    fqmShared "# No submission" [⟨0⟩, ⟨0⟩]
    [("alice", ⟨some ⟨"Alice", "alice@example.com", "7"⟩, [], ["a1"], [], ["Q1"]⟩)]
    (by decide) rfl

/-- Counterexample for C8: when the empty pattern is not the first matching
key, the router does NOT return it — an earlier matching pattern wins. -/
theorem empty_pattern_not_always_returned :
    get_question_key "abc" fqmEmptySecond = some "a" ∧
    get_question_key "abc" fqmEmptySecond ≠ some "" :=
  ⟨rfl, by decide⟩

/-- C8 amended: the empty regex matches every filename, so the router
returns the empty-string key only when it is reached first; whenever the
routed key is falsy (None or the empty string), the executor records the
file in no_match and makes no submit attempt; and the empty pattern's
question always receives exactly one placeholder attempt, because its key
can never be marked covered. -/
theorem empty_pattern_route_behaviour :
    (∀ filename title rest,
      get_question_key filename (("", title) :: rest) = some "") ∧
    (∀ (env : RemoteEnv) (ed : SubmissionEditData) (sid : Nat)
        (fqm : List (String × String)) (st : ProcState) (filename filepath : String),
      pyTruthyStr (get_question_key filename fqm) = false →
      processFile env ed sid fqm st filename filepath =
        .ok { st with
              entry := { st.entry with no_match := st.entry.no_match ++ [filename] } }) ∧
    (∀ (env : RemoteEnv) (fname : String) (files : List (String × String))
        (fsm : List (String × CourseUser)) (usm : List (Nat × AssessmentSubmission))
        (fqm : List (String × String)) (entry₀ : SubmissionReport) (nsc : String)
        (jobs : List JobSubmitted) (entry : SubmissionReport)
        (tr : List SubmitAttempt) (student : CourseUser),
      pyGet fsm fname = some student →
      ∀ sub : AssessmentSubmission, pyGet usm student.id = some sub →
      ∀ sid : Nat, sub.id = some sid →
      (fqm.map Prod.fst).Nodup →
      _process_user_files env fname files fsm usm fqm entry₀ nsc =
        .ok (jobs, entry, tr) →
      ∀ T, ("", T) ∈ fqm →
      tr.countP (fun ev => ev.placeholder && (ev.question_key == "")) = 1) := by
  refine ⟨?_, ?_, ?_⟩
  · intro filename title rest
    simp [get_question_key, show re_match "" filename = true from rfl]
  · intro env ed sid fqm st filename filepath hfalse
    unfold processFile
    rw [if_pos hfalse]
  · intro env fname files fsm usm fqm entry₀ nsc jobs entry tr student hs sub hsub
      sid hsid hnd h T hmem
    obtain ⟨st₁, st₂, h₁, h₂, -, -, rfl⟩ :=
      process_run_split env fname files fsm usm fqm entry₀ nsc jobs entry tr
        student hs sub hsub sid hsid h
    obtain ⟨-, hcov₁, htruthy₁, hcount₁, -⟩ :=
      fileFold_inv env (env.edit sid) sid fqm files _ st₁ h₁
    have hcov : coveredInv st₁ := hcov₁ (by intro k; rfl)
    have htruthy : fileKeysTruthy st₁ := htruthy₁ (by intro ev hev; simp at hev)
    have hcnt0 : st₁.trace.countP
        (fun ev => ev.placeholder && (ev.question_key == "")) = 0 := by
      refine hcount₁ _ ?_
      intro ev hev
      exact (Bool.and_eq_true_iff.mp hev).1
    have hfalse : st₁.submitted_questions.contains "" = false := by
      rw [hcov ""]
      cases hany : st₁.trace.any
          (fun ev => !ev.placeholder && ev.ok && (ev.question_key == "")) with
      | false => rfl
      | true =>
        obtain ⟨ev, hev, hprop⟩ := List.any_eq_true.mp hany
        obtain ⟨⟨hpl, -⟩, hkey⟩ :=
          And.imp_left Bool.and_eq_true_iff.mp (Bool.and_eq_true_iff.mp hprop)
        have : ev.question_key ≠ "" := htruthy ev hev (by simpa using hpl)
        exact absurd (by simpa using hkey) this
    rw [phFold_count_mem env (env.edit sid) sid nsc fqm st₁ st₂ "" T h₂ hmem hnd,
      hcnt0, hfalse]
    rfl
